import Mathlib

/-!
Verification of the bounded-concurrency fetch-and-validate pipeline of the
90-days-data-engineering repository.

The embedding covers:
* `day-04-asyncio.py` — `fetch_entity_data` and `run_extraction_pipeline`,
  including a small-step transition system for the `asyncio.Semaphore`
  admission gate;
* `pydantic_etl_validator.py` — the `TransaccionVentas` data contract and
  `procesar_lote_extraccion`;
* `day-07-ingestor-generico.py` — the `UsuarioAPI` contract and
  `IngestorGenerico.validar_en_flujo`.

Python exceptions are modelled with `Except`; machine floats appearing in the
JSON payloads are modelled as exact rationals (only their ordering and
equality matter to the validated properties); Python `datetime.date` values
are modelled as `Nat` codes `yyyymmdd`, whose numeric order agrees with
calendar order for in-range month/day fields.
-/

/-- Decidable equality for `Except`, needed so that concrete runs of the
embedded functions can be checked by `decide`. -/
instance {ε α : Type} [DecidableEq ε] [DecidableEq α] : DecidableEq (Except ε α) := fun x y =>
  match x, y with
  | .ok a, .ok b =>
      if h : a = b then .isTrue (by rw [h]) else .isFalse (fun hc => h (Except.ok.inj hc))
  | .error a, .error b =>
      if h : a = b then .isTrue (by rw [h]) else .isFalse (fun hc => h (Except.error.inj hc))
  | .ok _, .error _ => .isFalse (fun hc => Except.noConfusion hc)
  | .error _, .ok _ => .isFalse (fun hc => Except.noConfusion hc)

namespace Day04

/-- `MAX_CONCURRENT_REQUESTS = 10` from the source. -/
def MAX_CONCURRENT_REQUESTS : Nat := 10

/-- `TIMEOUT_SECONDS = 10` from the source. -/
def TIMEOUT_SECONDS : Nat := 10

/-- `POKEMON_IDS = range(1, 51)` from the source. -/
def POKEMON_IDS : List Nat := List.range' 1 50

/-- The Python exceptions that can escape a `session.get` / `response.json()`
call: `asyncio.TimeoutError`, `aiohttp.ClientError`, and any other
`Exception`. -/
inductive PyErr where
  | timeoutError
  | clientError (msg : String)
  | otherError (msg : String)
deriving DecidableEq, Repr

/-- Behaviour of one network call for one entity id: either the server
responded with a status code (and the `.json()` body read may itself raise),
or the `GET` raised an exception. -/
inductive NetBehavior (P : Type) where
  | resp (status : Nat) (json : Except PyErr P)
  | raiseErr (e : PyErr)
deriving DecidableEq, Repr

variable {P : Type}

/-- The body of the `try:` block of `fetch_entity_data`: issue the request;
on status 200 read and return the JSON body, otherwise log and return
`None`.  An exception anywhere in the block propagates as `.error`. -/
def fetchTry (b : NetBehavior P) : Except PyErr (Option P) :=
  match b with
  | .raiseErr e => .error e
  | .resp status json =>
      if status = 200 then
        match json with
        | .ok data => .ok (some data)
        | .error e => .error e
      else
        .ok none

/-- `fetch_entity_data`: the `try:` block together with its three `except`
handlers (`asyncio.TimeoutError`, `aiohttp.ClientError`, `Exception`), each
of which logs and falls through to `return None`.  The `Except` result type
records whether the call as a whole raises. -/
def fetch_entity_data (b : NetBehavior P) : Except PyErr (Option P) :=
  match fetchTry b with
  | .ok v => .ok v
  | .error .timeoutError => .ok none
  | .error (.clientError _) => .ok none
  | .error (.otherError _) => .ok none

/-- One slot of the list returned by
`asyncio.gather(*tasks, return_exceptions=True)`: the value the coroutine
returned, or the exception it raised, kept as data. -/
inductive GatherItem (P : Type) where
  | val (v : Option P)
  | exn (e : PyErr)
deriving DecidableEq, Repr

/-- Run one fetch task under `gather(..., return_exceptions=True)`. -/
def gatherOne (b : NetBehavior P) : GatherItem P :=
  match fetch_entity_data b with
  | .ok v => .val v
  | .error e => .exn e

/-- `results = await asyncio.gather(*tasks, return_exceptions=True)` over
the task list `[fetch_entity_data(session, p_id, semaphore) for p_id in ids]`,
where `net` gives the network behaviour of each entity id. -/
def gatherResults (net : Nat → NetBehavior P) (ids : List Nat) : List (GatherItem P) :=
  ids.map (fun i => gatherOne (net i))

/-- `isinstance(r, dict)`: true exactly for a returned parsed payload. -/
def isDict : GatherItem P → Bool
  | .val (some _) => true
  | _ => false

/-- `valid_results = [r for r in results if isinstance(r, dict)]`. -/
def valid_results (net : Nat → NetBehavior P) (ids : List Nat) : List (GatherItem P) :=
  (gatherResults net ids).filter isDict

/-- The summary the pipeline logs: the gathered outcome list, the count of
successful records, and the total attempted. -/
structure RunSummary (P : Type) where
  results : List (GatherItem P)
  exitosos : Nat
  total : Nat
deriving DecidableEq, Repr

/-- `run_extraction_pipeline`, generalised over the identifier sequence it
fans out over (the source instantiates it with `POKEMON_IDS`) and over the
network behaviour.  The `Except` result type records whether the orchestrator
itself raises; no statement in its body raises, and every per-task exception
is captured by `return_exceptions=True`. -/
def run_extraction_pipeline (net : Nat → NetBehavior P) (ids : List Nat) :
    Except PyErr (RunSummary P) :=
  let results := gatherResults net ids
  let valid := results.filter isDict
  .ok ⟨results, valid.length, ids.length⟩

/-- Count of failed fetches: the results that are not successful payloads
(the complement of `valid_results` inside `results`). -/
def failedCount (net : Nat → NetBehavior P) (ids : List Nat) : Nat :=
  ((gatherResults net ids).filter (fun r => !isDict r)).length

/-! ### The admission gate (`asyncio.Semaphore`)

`fetch_entity_data` wraps its whole body in `async with semaphore`.  We model
a run of `run_extraction_pipeline` as an interleaving of gate transitions:
each task is created `waiting`, acquires one slot (possible only when the
semaphore counter is positive), holds it while the network call is in
flight, and releases it when the call finishes.  The scheduler is fully
nondeterministic. -/

/-- Where one fetch task stands with respect to the admission gate. -/
inductive TaskPhase (P : Type) where
  | waiting
  | holding
  | finished (r : GatherItem P)
deriving DecidableEq, Repr

/-- Global state of a pipeline run: the semaphore's internal counter and the
phase of every task, listed in issue order together with its entity id. -/
structure SemState (P : Type) where
  value : Nat
  tasks : List (Nat × TaskPhase P)
deriving DecidableEq, Repr

/-- `True` for a task currently inside the `async with semaphore` block. -/
def isHolding : Nat × TaskPhase P → Bool
  | (_, .holding) => true
  | _ => false

/-- Number of tasks concurrently holding a gate slot. -/
def holdingCount (s : SemState P) : Nat :=
  s.tasks.countP isHolding

/-- Initial state: `asyncio.Semaphore(c)` fresh, and one `waiting` task per
identifier, as built by the task-list comprehension. -/
def initState (c : Nat) (ids : List Nat) : SemState P :=
  ⟨c, ids.map (fun i => (i, .waiting))⟩

/-- One scheduler step of a pipeline run.  The gate counter is touched in
exactly two places: `acquire` (entry into `async with semaphore`, enabled
only while the counter is positive) and `release` (exit from the block, at
which point the task's fetch outcome is recorded). -/
inductive SemStep (net : Nat → NetBehavior P) : SemState P → SemState P → Prop where
  | acquire (s : SemState P) (i id0 : Nat) :
      s.tasks.get? i = some (id0, .waiting) →
      0 < s.value →
      SemStep net s ⟨s.value - 1, s.tasks.set i (id0, .holding)⟩
  | release (s : SemState P) (i id0 : Nat) :
      s.tasks.get? i = some (id0, .holding) →
      SemStep net s ⟨s.value + 1, s.tasks.set i (id0, .finished (gatherOne (net id0)))⟩

/-- States reachable from `st` by any interleaving. -/
def Reaches (net : Nat → NetBehavior P) : SemState P → SemState P → Prop :=
  Relation.ReflTransGen (SemStep net)

/-- Replacing one list element trades its `countP` contribution for the new
element's: stated additively to stay in `Nat`. -/
theorem countP_set_exchange (p : α → Bool) :
    ∀ (l : List α) (i : Nat) (a b : α), l.get? i = some a →
      (l.set i b).countP p + (if p a then 1 else 0) =
        l.countP p + (if p b then 1 else 0) := by
  intro l
  induction l with
  | nil => intro i a b h; simp at h
  | cons x xs ih =>
      intro i a b h
      cases i with
      | zero =>
          simp only [List.get?] at h
          cases h
          simp only [List.set, List.countP_cons]
          omega
      | succ j =>
          simp only [List.get?] at h
          simp only [List.set, List.countP_cons]
          have := ih j a b h
          omega

/-- The gate invariant: available slots plus live holders always equal the
configured capacity. -/
def GateInv (c : Nat) (s : SemState P) : Prop :=
  s.value + holdingCount s = c

theorem gateInv_init (c : Nat) (ids : List Nat) : GateInv c (initState (P := P) c ids) := by
  unfold GateInv initState holdingCount
  have : (ids.map (fun i => (i, TaskPhase.waiting (P := P)))).countP isHolding = 0 := by
    rw [List.countP_eq_zero]
    intro a ha
    rcases List.mem_map.mp ha with ⟨i, _, rfl⟩
    simp [isHolding]
  simp [this]

theorem gateInv_step {net : Nat → NetBehavior P} {s s' : SemState P} {c : Nat}
    (hstep : SemStep net s s') (hinv : GateInv c s) : GateInv c s' := by
  unfold GateInv holdingCount at *
  cases hstep with
  | acquire i id0 hget hpos =>
      have h := countP_set_exchange (isHolding (P := P)) s.tasks i _ (id0, .holding) hget
      simp [isHolding] at h
      simp only
      omega
  | release i id0 hget =>
      have h := countP_set_exchange (isHolding (P := P)) s.tasks i _
        (id0, .finished (gatherOne (net id0))) hget
      simp [isHolding] at h
      simp only
      omega

theorem gateInv_reachable {net : Nat → NetBehavior P} {c : Nat} {ids : List Nat}
    {s : SemState P} (h : Reaches net (initState c ids) s) : GateInv c s := by
  induction h with
  | refl => exact gateInv_init c ids
  | tail _ hstep ih => exact gateInv_step hstep ih

/-- Splitting a list by a predicate preserves its length. -/
theorem filter_split_length (p : α → Bool) (l : List α) :
    (l.filter p).length + (l.filter (fun a => !p a)).length = l.length := by
  induction l with
  | nil => rfl
  | cons x xs ih =>
      cases hx : p x <;> simp [List.filter_cons, hx] <;> omega

/-- `getD` through `map`, for an in-range index. -/
theorem map_getD (f : α → β) :
    ∀ (l : List α) (j : Nat), j < l.length →
      ∀ (d : β) (d0 : α), (l.map f).getD j d = f (l.getD j d0) := by
  intro l
  induction l with
  | nil => intro j hj; simp at hj
  | cons x xs ih =>
      intro j hj d d0
      cases j with
      | zero => simp [List.getD]
      | succ k =>
          simp only [List.map_cons, List.getD_cons_succ]
          exact ih k (by simpa using hj) d d0

/-- `get?` through `map`, for an in-range index, in terms of `getD`. -/
theorem gatherResults_get? (net : Nat → NetBehavior P) :
    ∀ (ids : List Nat) (j : Nat), j < ids.length →
      (gatherResults net ids).get? j = some (gatherOne (net (ids.getD j 0))) := by
  intro ids
  induction ids with
  | nil => intro j hj; simp at hj
  | cons x xs ih =>
      intro j hj
      cases j with
      | zero => simp [gatherResults, List.getD]
      | succ k =>
          simp only [gatherResults, List.map_cons, List.get?, List.getD_cons_succ]
          exact ih k (by simpa using hj)

/-- A fixed test network: entity id 2 answers HTTP 404, every other id
answers HTTP 200 with payload `7`. -/
def netW : Nat → NetBehavior Nat := fun i =>
  if i = 2 then .resp 404 (.ok 0) else .resp 200 (.ok 7)

/-- The same network except that id 2 answers HTTP 500. -/
def netW500 : Nat → NetBehavior Nat := fun i =>
  if i = 2 then .resp 500 (.ok 0) else .resp 200 (.ok 7)

/-- The same network except that id 2 times out. -/
def netT : Nat → NetBehavior Nat := fun i =>
  if i = 2 then .raiseErr .timeoutError else .resp 200 (.ok 7)

/-- Claim C1: during any execution of the batch orchestrator, the number of
dispatch operations concurrently past the admission gate never exceeds the
configured capacity `c` (default `MAX_CONCURRENT_REQUESTS = 10`), for every
identifier sequence and every scheduling; moreover available slots plus
holders always equal `c`, and every transition mutates the gate counter by
exactly one acquire-decrement or one release-increment. -/
theorem gate_never_exceeds_capacity (net : Nat → NetBehavior P) (c : Nat) (ids : List Nat)
    (s : SemState P) (h : Reaches net (initState c ids) s) :
    holdingCount s ≤ c ∧ s.value + holdingCount s = c ∧
    (∀ s1 s2 : SemState P, SemStep net s1 s2 →
      (s2.value + 1 = s1.value ∧ holdingCount s2 = holdingCount s1 + 1) ∨
      (s2.value = s1.value + 1 ∧ holdingCount s2 + 1 = holdingCount s1)) := by
  have hsum : s.value + holdingCount s = c := gateInv_reachable h
  refine ⟨by omega, hsum, ?_⟩
  intro s1 s2 hstep
  cases hstep with
  | acquire i id0 hget hpos =>
      have hx := countP_set_exchange (isHolding (P := P)) s1.tasks i _ (id0, .holding) hget
      simp [isHolding] at hx
      refine Or.inl ⟨?_, ?_⟩
      · show s1.value - 1 + 1 = s1.value
        omega
      · show (s1.tasks.set i (id0, TaskPhase.holding)).countP isHolding
            = s1.tasks.countP isHolding + 1
        omega
  | release i id0 hget =>
      have hx := countP_set_exchange (isHolding (P := P)) s1.tasks i _
        (id0, .finished (gatherOne (net id0))) hget
      simp [isHolding] at hx
      refine Or.inr ⟨rfl, ?_⟩
      show (s1.tasks.set i (id0, TaskPhase.finished (gatherOne (net id0)))).countP isHolding + 1
          = s1.tasks.countP isHolding
      omega

/-- Witness for C1 at a concrete input: capacity 10, identifiers `[1,2,3]`,
at the state reached after task 0 acquires the gate. -/
theorem gate_never_exceeds_capacity_witness :
    holdingCount (SemState.mk 9 [(1, TaskPhase.holding (P := Nat)), (2, .waiting), (3, .waiting)])
        ≤ MAX_CONCURRENT_REQUESTS ∧
    (9 : Nat) + holdingCount (SemState.mk 9 [(1, TaskPhase.holding (P := Nat)), (2, .waiting), (3, .waiting)])
        = MAX_CONCURRENT_REQUESTS := by
  have hstep : SemStep netW (initState MAX_CONCURRENT_REQUESTS [1, 2, 3])
      ⟨9, [(1, .holding), (2, .waiting), (3, .waiting)]⟩ := by
    have h : SemStep netW (initState (P := Nat) MAX_CONCURRENT_REQUESTS [1, 2, 3])
        ⟨(initState (P := Nat) MAX_CONCURRENT_REQUESTS [1, 2, 3]).value - 1,
          (initState (P := Nat) MAX_CONCURRENT_REQUESTS [1, 2, 3]).tasks.set 0 (1, .holding)⟩ :=
      SemStep.acquire _ 0 1 (by decide) (by decide)
    have he : (SemState.mk ((initState (P := Nat) MAX_CONCURRENT_REQUESTS [1, 2, 3]).value - 1)
        ((initState (P := Nat) MAX_CONCURRENT_REQUESTS [1, 2, 3]).tasks.set 0 (1, .holding)))
        = ⟨9, [(1, .holding), (2, .waiting), (3, .waiting)]⟩ := by decide
    exact he ▸ h
  have hres := gate_never_exceeds_capacity netW MAX_CONCURRENT_REQUESTS [1, 2, 3] _
    (Relation.ReflTransGen.single hstep)
  exact ⟨hres.1, hres.2.1⟩

/-- Claim C2: for every identifier sequence (length 0 and duplicates
included) the batch produces exactly one gathered outcome per identifier,
succeeded plus failed outcomes account for the whole input, and the outcome
in each slot is determined by that slot's identifier alone, so one failing
identifier cannot suppress the outcome of any other. -/
theorem runBatch_full_accounting (net : Nat → NetBehavior P) (ids : List Nat) :
    (gatherResults net ids).length = ids.length ∧
    (valid_results net ids).length + failedCount net ids = ids.length ∧
    (∀ j, j < ids.length →
      (gatherResults net ids).get? j = some (gatherOne (net (ids.getD j 0)))) := by
  refine ⟨by simp [gatherResults], ?_, gatherResults_get? net ids⟩
  have h := filter_split_length (isDict (P := P)) (gatherResults net ids)
  have hlen : (gatherResults net ids).length = ids.length := by simp [gatherResults]
  unfold valid_results failedCount
  omega

/-- Witness for C2 at a concrete input: the duplicated sequence `[1,2,2]`
under `netW`, where id 2 fails with a 404 yet both its slots and the slot of
id 1 are all present. -/
theorem runBatch_full_accounting_witness :
    (gatherResults netW [1, 2, 2]).length = 3 ∧
    (valid_results netW [1, 2, 2]).length + failedCount netW [1, 2, 2] = 3 ∧
    (gatherResults netW [1, 2, 2]).get? 1 = some (gatherOne (netW 2)) := by
  obtain ⟨h1, h2, h3⟩ := runBatch_full_accounting netW [1, 2, 2]
  exact ⟨by simpa using h1, by simpa using h2, h3 1 (by decide)⟩

/-- Claim C3: `fetch_entity_data` never lets an exception escape: whatever
the network call does (200 response, other status, timeout, connection
error, unexpected exception, or a failing body read), it returns a value. -/
theorem fetch_never_raises (b : NetBehavior P) :
    ∃ v : Option P, fetch_entity_data b = .ok v := by
  unfold fetch_entity_data fetchTry
  cases b with
  | raiseErr e => cases e <;> exact ⟨none, rfl⟩
  | resp status json =>
      by_cases h : status = 200
      · cases json with
        | ok d => exact ⟨some d, by simp [h]⟩
        | error e => cases e <;> exact ⟨none, by simp [h]⟩
      · exact ⟨none, by simp [h]⟩

/-- Claim C9: the dispatch outcome is the parsed payload exactly on a 200
response with a readable body, and the single value `None` in every other
case, so soft failures, hard failures, their status codes and their causes
are indistinguishable in the returned outcome. -/
theorem fetch_collapses_failures (b : NetBehavior P) :
    (∀ p : P, fetch_entity_data b = .ok (some p) ↔ b = .resp 200 (.ok p)) ∧
    ((∀ p : P, b ≠ .resp 200 (.ok p)) → fetch_entity_data b = .ok none) ∧
    (∀ b' : NetBehavior P, (∀ p : P, b ≠ .resp 200 (.ok p)) →
      (∀ p : P, b' ≠ .resp 200 (.ok p)) →
      fetch_entity_data b = fetch_entity_data b') := by
  have key : ∀ b0 : NetBehavior P,
      (∀ p : P, fetch_entity_data b0 = .ok (some p) ↔ b0 = .resp 200 (.ok p)) ∧
      ((∀ p : P, b0 ≠ .resp 200 (.ok p)) → fetch_entity_data b0 = .ok none) := by
    intro b0
    cases b0 with
    | raiseErr e =>
        have hv : fetch_entity_data (NetBehavior.raiseErr (P := P) e) = .ok none := by
          cases e <;> rfl
        refine ⟨fun p => ?_, fun _ => hv⟩
        rw [hv]
        simp
    | resp status json =>
        by_cases h : status = 200
        · subst h
          cases json with
          | ok d =>
              have hv : fetch_entity_data (NetBehavior.resp 200 (Except.ok d)) = .ok (some d) :=
                rfl
              refine ⟨fun p => ?_, fun hne => absurd rfl (hne d)⟩
              rw [hv]
              simp
          | error e =>
              have hv : fetch_entity_data (NetBehavior.resp 200 (Except.error (α := P) e))
                  = .ok none := by cases e <;> rfl
              refine ⟨fun p => ?_, fun _ => hv⟩
              rw [hv]
              simp
        · have hv : fetch_entity_data (NetBehavior.resp status json) = .ok none := by
            simp [fetch_entity_data, fetchTry, h]
          refine ⟨fun p => ?_, fun _ => hv⟩
          rw [hv]
          simp [NetBehavior.resp.injEq, h]
  refine ⟨(key b).1, (key b).2, ?_⟩
  intro b' hb hb'
  rw [(key b).2 hb, (key b').2 hb']

/-- Witness for C9 at concrete inputs: a 404 response and a timeout produce
the same recorded outcome `None`. -/
theorem fetch_collapses_failures_witness :
    fetch_entity_data (NetBehavior.resp 404 (Except.ok (0 : Nat))) =
      fetch_entity_data (NetBehavior.raiseErr (P := Nat) .timeoutError) := by
  exact (fetch_collapses_failures (NetBehavior.resp 404 (Except.ok (0 : Nat)))).2.2
    (NetBehavior.raiseErr .timeoutError)
    (by intro p h; simp at h)
    (by intro p h; simp at h)

/-- Claim C4 counterexample: in the code the outcome recorded for identifier
2 when it answers HTTP 404 is the bare `None` marker, identical to the
outcome when it answers HTTP 500 — no `SoftFailure` tag carrying status 404
exists in the batch result (the status is only logged). -/
theorem status_not_tagged_counterexample :
    run_extraction_pipeline netW [1, 2, 3] =
      .ok ⟨[.val (some 7), .val none, .val (some 7)], 2, 3⟩ ∧
    run_extraction_pipeline netW500 [1, 2, 3] =
      .ok ⟨[.val (some 7), .val none, .val (some 7)], 2, 3⟩ := by
  constructor <;> rfl

/-- Claim C4 (amended): a 200 response yields the parsed payload, any other
status yields `None` without carrying the status code, and a transport error
or unexpected exception also yields `None`; in the scenario `[1,2,3]` with
identifier 2 answering 404 the batch reports 3 attempted, 2 succeeded and 1
failed, with the outcome for 2 recorded as `None` rather than a tagged
`SoftFailure(status=404)`. -/
theorem status_classification_amended (p : P) (status : Nat) (hs : status ≠ 200)
    (j : Except PyErr P) (e : PyErr) :
    fetch_entity_data (NetBehavior.resp 200 (.ok p)) = .ok (some p) ∧
    fetch_entity_data (NetBehavior.resp status j) = .ok none ∧
    fetch_entity_data (NetBehavior.raiseErr (P := P) e) = .ok none ∧
    run_extraction_pipeline netW [1, 2, 3] =
      .ok ⟨[.val (some 7), .val none, .val (some 7)], 2, 3⟩ ∧
    failedCount netW [1, 2, 3] = 1 := by
  refine ⟨by simp [fetch_entity_data, fetchTry], ?_, ?_, by rfl, by rfl⟩
  · simp only [fetch_entity_data, fetchTry, if_neg hs]
  · cases e <;> rfl

/-- Witness for C4 (amended) at concrete inputs. -/
theorem status_classification_amended_witness :
    fetch_entity_data (NetBehavior.resp 200 (.ok (5 : Nat))) = .ok (some 5) ∧
    fetch_entity_data (NetBehavior.resp 404 (Except.ok (5 : Nat))) = .ok none ∧
    fetch_entity_data (NetBehavior.raiseErr (P := Nat) .timeoutError) = .ok none ∧
    run_extraction_pipeline netW [1, 2, 3] =
      .ok ⟨[.val (some 7), .val none, .val (some 7)], 2, 3⟩ ∧
    failedCount netW [1, 2, 3] = 1 :=
  status_classification_amended (5 : Nat) 404 (by decide) (Except.ok 5) .timeoutError

/-- Claim C5 counterexample: a timed-out dispatch is recorded exactly like a
connection error — the outcome is the untagged `None`, carrying no
`cause = timeout` marker (the cause is only logged). -/
theorem timeout_cause_not_tagged_counterexample :
    fetch_entity_data (NetBehavior.raiseErr (P := Nat) .timeoutError) = .ok none ∧
    fetch_entity_data (NetBehavior.raiseErr (P := Nat) (.clientError "connection refused"))
      = .ok none := by
  constructor <;> rfl

/-- Claim C5 (amended): a dispatch that exceeds the per-request timeout
(`TIMEOUT_SECONDS = 10`) has its `asyncio.TimeoutError` caught and recorded
as the untagged outcome `None` (not as a `HardFailure` carrying
`cause = timeout`); the timeout is scoped to that single request: every other
slot of the batch is unaffected by changing the behaviour of the timed-out
identifier. -/
theorem timeout_isolated_amended (net net' : Nat → NetBehavior P) (ids : List Nat) (i : Nat)
    (hagree : ∀ x, x ≠ i → net x = net' x) :
    fetch_entity_data (NetBehavior.raiseErr (P := P) .timeoutError) = .ok none ∧
    TIMEOUT_SECONDS = 10 ∧
    (gatherResults net ids).length = (gatherResults net' ids).length ∧
    (∀ j, j < ids.length → ids.getD j 0 ≠ i →
      (gatherResults net ids).get? j = (gatherResults net' ids).get? j) := by
  refine ⟨rfl, rfl, by simp [gatherResults], ?_⟩
  intro j hj hne
  rw [gatherResults_get? net ids j hj, gatherResults_get? net' ids j hj,
    hagree (ids.getD j 0) hne]

/-- Witness for C5 (amended) at a concrete input: id 2 times out under
`netT` and answers 404 under `netW`; slot 0 (id 1) is identical in both
runs. -/
theorem timeout_isolated_amended_witness :
    fetch_entity_data (NetBehavior.raiseErr (P := Nat) .timeoutError) = .ok none ∧
    TIMEOUT_SECONDS = 10 ∧
    (gatherResults netT [1, 2, 3]).length = (gatherResults netW [1, 2, 3]).length ∧
    (gatherResults netT [1, 2, 3]).get? 0 = (gatherResults netW [1, 2, 3]).get? 0 := by
  obtain ⟨h1, h2, h3, h4⟩ := timeout_isolated_amended netT netW [1, 2, 3] 2
    (by intro x hx; simp [netT, netW, hx])
  exact ⟨h1, h2, h3, h4 0 (by decide) (by decide)⟩

/-- Claim C8 counterexample: an empty identifier sequence does not raise any
configuration error — the pipeline returns a normal (empty) result. -/
theorem no_fatal_config_error_counterexample :
    run_extraction_pipeline (P := Nat) netW [] = .ok ⟨[], 0, 0⟩ := by rfl

/-- Claim C8 (amended): the code validates no run parameters: the
concurrency capacity is the fixed positive constant
`MAX_CONCURRENT_REQUESTS = 10`, no `FatalConfigurationError` exists, and the
batch never propagates an error to the caller — for every network behaviour
and every identifier sequence, the empty one included, it returns a result
covering the whole input. -/
theorem batch_never_propagates (net : Nat → NetBehavior P) (ids : List Nat) :
    (∃ s : RunSummary P, run_extraction_pipeline net ids = .ok s ∧
      s.total = ids.length ∧ s.results.length = ids.length) ∧
    MAX_CONCURRENT_REQUESTS = 10 := by
  refine ⟨⟨⟨gatherResults net ids, ((gatherResults net ids).filter isDict).length, ids.length⟩,
    rfl, rfl, by simp [gatherResults]⟩, rfl⟩

end Day04

namespace Validator

/-! ### Python string primitives used by the validators

`str.strip()` and `str.upper()` are modelled character-exactly on the ASCII
fragment: `strip` removes the ASCII whitespace characters from both ends and
`upper` maps `a`–`z` to `A`–`Z`, leaving every other character unchanged. -/

/-- The whitespace characters removed by `str.strip()` (ASCII fragment):
space, tab, newline, carriage return, vertical tab, form feed. -/
def isPySpace (c : Char) : Bool :=
  c.toNat = 32 || c.toNat = 9 || c.toNat = 10 || c.toNat = 13 ||
    c.toNat = 11 || c.toNat = 12

/-- `str.upper()` on one character (ASCII fragment). -/
def upperChar (c : Char) : Char :=
  if 97 ≤ c.toNat ∧ c.toNat ≤ 122 then Char.ofNat (c.toNat - 32) else c

/-- Remove trailing `isPySpace` characters. -/
def trimEndChars : List Char → List Char
  | [] => []
  | c :: rest =>
      match trimEndChars rest with
      | [] => if isPySpace c then [] else [c]
      | r => c :: r

/-- `str.strip()`: drop whitespace from the front, then from the back. -/
def stripChars (l : List Char) : List Char :=
  trimEndChars (l.dropWhile isPySpace)

/-- `s.strip()` on strings. -/
def pyStrip (s : String) : String := ⟨stripChars s.data⟩

/-- `s.upper()` on strings. -/
def pyUpper (s : String) : String := ⟨s.data.map upperChar⟩

/-- `s.strip().upper()`, the transform of `estandarizar_metodo_pago`. -/
def pyStripUpper (s : String) : String := pyUpper (pyStrip s)

theorem toNat_ofNat_of_le (n : Nat) (h1 : 65 ≤ n) (h2 : n ≤ 90) :
    (Char.ofNat n).toNat = n := by
  interval_cases n <;> decide

/-- `upperChar` maps cased letters into `A`–`Z` and fixes everything else. -/
theorem upperChar_toNat (c : Char) (h : 97 ≤ c.toNat ∧ c.toNat ≤ 122) :
    (upperChar c).toNat = c.toNat - 32 := by
  unfold upperChar
  rw [if_pos h]
  exact toNat_ofNat_of_le _ (by omega) (by omega)

/-- `upperChar` fixes any character outside the lowercase range. -/
theorem upperChar_fix (d : Char) (hd : ¬(97 ≤ d.toNat ∧ d.toNat ≤ 122)) : upperChar d = d := by
  unfold upperChar
  rw [if_neg hd]

theorem upperChar_idem (c : Char) : upperChar (upperChar c) = upperChar c := by
  by_cases h : 97 ≤ c.toNat ∧ c.toNat ≤ 122
  · exact upperChar_fix _ (by have := upperChar_toNat c h; omega)
  · rw [upperChar_fix c h]
    exact upperChar_fix c h

theorem isPySpace_upperChar (c : Char) : isPySpace (upperChar c) = isPySpace c := by
  by_cases h : 97 ≤ c.toNat ∧ c.toNat ≤ 122
  · have ht := upperChar_toNat c h
    unfold isPySpace
    rw [ht, Bool.eq_iff_iff]
    simp only [Bool.or_eq_true, decide_eq_true_eq]
    omega
  · rw [upperChar_fix c h]

theorem dropWhile_length_le (p : α → Bool) (l : List α) :
    (l.dropWhile p).length ≤ l.length := by
  induction l with
  | nil => simp
  | cons x xs ih =>
      by_cases h : p x
      · rw [List.dropWhile_cons_of_pos h]
        exact Nat.le_succ_of_le ih
      · rw [List.dropWhile_cons_of_neg h]

/-- A list fixed by `dropWhile p` has a head not satisfying `p`, hence
`dropWhile p` fixes it again after any head-preserving surgery; stated here
directly: the head of such a list fails `p`. -/
theorem head_not_of_dropWhile_fix (p : α → Bool) (c : α) (r : List α)
    (h : (c :: r).dropWhile p = c :: r) : p c = false := by
  by_cases hc : p c
  · rw [List.dropWhile_cons_of_pos hc] at h
    have := dropWhile_length_le p r
    rw [h] at this
    simp at this
  · simpa using hc

theorem dropWhile_idem (p : α → Bool) (l : List α) :
    (l.dropWhile p).dropWhile p = l.dropWhile p := by
  induction l with
  | nil => rfl
  | cons x xs ih =>
      by_cases h : p x
      · rw [List.dropWhile_cons_of_pos h]
        exact ih
      · rw [List.dropWhile_cons_of_neg h, List.dropWhile_cons_of_neg h]

/-- Unfolding equation of `trimEndChars` on a cons cell. -/
theorem trimEnd_cons (c : Char) (rest : List Char) :
    trimEndChars (c :: rest) = match trimEndChars rest with
      | [] => if isPySpace c then [] else [c]
      | r => c :: r := rfl

theorem trimEndChars_idem (l : List Char) : trimEndChars (trimEndChars l) = trimEndChars l := by
  induction l with
  | nil => rfl
  | cons c rest ih =>
      cases hr : trimEndChars rest with
      | nil =>
          by_cases hc : isPySpace c
          · simp only [trimEnd_cons, hr, if_pos hc]
            rfl
          · simp only [trimEnd_cons, hr, if_neg hc]
            rfl
      | cons y ys =>
          rw [hr] at ih
          simp only [trimEnd_cons, hr, ih]

/-- If `dropWhile` fixes a list then it also fixes its end-trimmed form. -/
theorem dropWhile_trimEnd_fix (l : List Char) (h : l.dropWhile isPySpace = l) :
    (trimEndChars l).dropWhile isPySpace = trimEndChars l := by
  cases l with
  | nil => rfl
  | cons c r =>
      have hc := head_not_of_dropWhile_fix isPySpace c r h
      unfold trimEndChars
      cases hr : trimEndChars r with
      | nil =>
          rw [if_neg (by simp [hc])]
          simp [List.dropWhile, hc]
      | cons y ys =>
          simp only
          rw [List.dropWhile_cons_of_neg (by simp [hc])]

theorem stripChars_idem (l : List Char) : stripChars (stripChars l) = stripChars l := by
  unfold stripChars
  rw [dropWhile_trimEnd_fix _ (dropWhile_idem isPySpace l), trimEndChars_idem]

/-- `trimEndChars` commutes with mapping a whitespace-preserving function
over a list it already fixes. -/
theorem trimEnd_map_fix (f : Char → Char) (hf : ∀ c, isPySpace (f c) = isPySpace c) :
    ∀ l : List Char, trimEndChars l = l → trimEndChars (l.map f) = l.map f := by
  intro l
  induction l with
  | nil => intro _; rfl
  | cons c r ih =>
      intro h
      cases hr : trimEndChars r with
      | nil =>
          simp only [trimEnd_cons, hr] at h
          by_cases hc : isPySpace c
          · rw [if_pos hc] at h
            exact absurd h (by simp)
          · rw [if_neg hc] at h
            obtain ⟨-, h2⟩ := List.cons.inj h
            subst h2
            simp only [List.map_cons, List.map_nil]
            rw [show trimEndChars [f c] = if isPySpace (f c) = true then [] else [f c] from rfl,
              hf c, if_neg hc]
      | cons y ys =>
          simp only [trimEnd_cons, hr] at h
          obtain ⟨-, h2⟩ := List.cons.inj h
          subst h2
          have hm := ih (by rw [hr])
          simp only [List.map_cons] at hm ⊢
          rw [trimEnd_cons, hm]

/-- If `dropWhile` fixes a list, it also fixes its image under a
whitespace-preserving map. -/
theorem dropWhile_map_fix (f : Char → Char) (hf : ∀ c, isPySpace (f c) = isPySpace c)
    (l : List Char) (h : l.dropWhile isPySpace = l) :
    (l.map f).dropWhile isPySpace = l.map f := by
  cases l with
  | nil => rfl
  | cons c r =>
      have hc := head_not_of_dropWhile_fix isPySpace c r h
      simp only [List.map_cons]
      rw [List.dropWhile_cons_of_neg (by rw [hf]; simp [hc])]

/-- The headline idempotence fact: `s.strip().upper()` is a fixed point of
itself. -/
theorem pyStripUpper_idem (s : String) : pyStripUpper (pyStripUpper s) = pyStripUpper s := by
  have key : ∀ l : List Char,
      (stripChars ((stripChars l).map upperChar)).map upperChar = (stripChars l).map upperChar := by
    intro l
    have hfix : (stripChars l).dropWhile isPySpace = stripChars l :=
      dropWhile_trimEnd_fix _ (dropWhile_idem isPySpace l)
    have htfix : trimEndChars (stripChars l) = stripChars l :=
      trimEndChars_idem (l.dropWhile isPySpace)
    have h1 : stripChars ((stripChars l).map upperChar) = (stripChars l).map upperChar := by
      show trimEndChars (((stripChars l).map upperChar).dropWhile isPySpace)
          = (stripChars l).map upperChar
      rw [dropWhile_map_fix upperChar isPySpace_upperChar _ hfix]
      exact trimEnd_map_fix upperChar isPySpace_upperChar _ htfix
    rw [h1, List.map_map]
    have hcomp : upperChar ∘ upperChar = upperChar := funext upperChar_idem
    rw [hcomp]
  exact congrArg String.mk (key s.data)

/-! ### Data model

Raw records arrive as parsed JSON (`json.loads` output): string-keyed
mappings of JSON scalars.  The dictionaries produced by `model_dump()` can
additionally hold `datetime.date` objects, so the validators operate on the
wider `PyVal` type into which JSON values embed. -/

/-- JSON scalar values as produced by `json.loads`.  Numbers are split, as
in Python, into ints and floats (floats modelled as exact rationals). -/
inductive JVal where
  | jint (n : Int)
  | jnum (q : Rat)
  | jstr (s : String)
  | jnull
deriving DecidableEq, Repr

/-- A raw input record: a JSON object. -/
abbrev RawRecord := List (String × JVal)

/-- Python runtime values that can appear in a dict handed to a model:
JSON scalars plus `datetime.date` (encoded `yyyymmdd`). -/
inductive PyVal where
  | pint (n : Int)
  | pnum (q : Rat)
  | pstr (s : String)
  | pnone
  | pdate (d : Nat)
deriving DecidableEq, Repr

/-- A Python dict of field name to value. -/
abbrev PyRecord := List (String × PyVal)

def JVal.toPy : JVal → PyVal
  | .jint n => .pint n
  | .jnum q => .pnum q
  | .jstr s => .pstr s
  | .jnull => .pnone

/-- Embedding of a parsed-JSON record into the runtime dict it denotes. -/
def RawRecord.toPy (r : RawRecord) : PyRecord :=
  r.map (fun kv => (kv.1, kv.2.toPy))

/-- Dictionary key lookup (Python dict keys are unique; first match). -/
def dictGet (k : String) : PyRecord → Option PyVal
  | [] => none
  | (k2, v) :: rest => if k2 = k then some v else dictGet k rest

/-- One entry of `ValidationError.errors()`: the offending field and the
message (the fields of the structured reason list that the pipeline under
verification consumes). -/
structure ErrItem where
  loc : String
  msg : String
deriving DecidableEq, Repr

/-! ### The `TransaccionVentas` contract

Each field validator mirrors one field declaration of the Pydantic model,
including Pydantic V2 lax coercions actually exercised by the pipeline:
int-from-digit-string, float-from-numeric-string, date-from-ISO-string.
`EmailStr` delegates to the external email-validator capability, modelled as
an RFC-style format check that accepts the string unchanged. -/

/-! Structural (kernel-evaluable) models of the Python string primitives
`str.split` and numeric-string parsing used by the coercions. -/

/-- Split a character list at every occurrence of `sep` (Python
`str.split(sep)` for a one-character separator). -/
def splitOnAux (sep : Char) : List Char → List (List Char)
  | [] => [[]]
  | c :: rest =>
      match splitOnAux sep rest with
      | [] => if c = sep then [[], []] else [[c]]
      | g :: gs => if c = sep then [] :: g :: gs else (c :: g) :: gs

/-- `s.split(sep)` on strings. -/
def splitChar (sep : Char) (s : String) : List String :=
  (splitOnAux sep s.data).map String.mk

/-- Decimal digit value of a character, if it is one. -/
def digitVal (c : Char) : Option Nat :=
  if 48 ≤ c.toNat ∧ c.toNat ≤ 57 then some (c.toNat - 48) else none

def parseNatAux : List Char → Nat → Option Nat
  | [], acc => some acc
  | c :: rest, acc =>
      match digitVal c with
      | some d => parseNatAux rest (acc * 10 + d)
      | none => none

/-- Parse a nonempty all-digit string (`int(s)` for nonnegative input). -/
def parseNatStr (s : String) : Option Nat :=
  match s.data with
  | [] => none
  | l => parseNatAux l 0

/-- Parse an integer string with an optional leading minus sign. -/
def parseIntStr (s : String) : Option Int :=
  match s.data with
  | '-' :: rest =>
      match rest with
      | [] => none
      | l => (parseNatAux l 0).map (fun n => -(n : Int))
  | l =>
      match l with
      | [] => none
      | l2 => (parseNatAux l2 0).map (fun n => (n : Int))

/-- Lax coercion to `int`: ints pass, integral floats pass, digit strings
(with optional sign) are parsed. -/
def coerceInt (fieldName : String) : Option PyVal → Except ErrItem Int
  | none => .error ⟨fieldName, "Field required"⟩
  | some (.pint n) => .ok n
  | some (.pnum q) =>
      if q.den = 1 then .ok q.num
      else .error ⟨fieldName, "Input should be a valid integer"⟩
  | some (.pstr s) =>
      match parseIntStr s with
      | some n => .ok n
      | none => .error ⟨fieldName, "Input should be a valid integer"⟩
  | some _ => .error ⟨fieldName, "Input should be a valid integer"⟩

/-- `transaccion_id: int` (required). -/
def vId (r : PyRecord) : Except ErrItem Int :=
  coerceInt "transaccion_id" (dictGet "transaccion_id" r)

/-- RFC-style e-mail format check standing in for the external
email-validator capability behind `EmailStr`: exactly one `@`, a nonempty
local part, and a dotted domain with nonempty labels. -/
def checkEmail (s : String) : Bool :=
  match splitChar '@' s with
  | [locPart, domain] =>
      locPart.length > 0 && domain.length > 0 &&
        (splitChar '.' domain).length ≥ 2 &&
        (splitChar '.' domain).all (fun p => p.length > 0)
  | _ => false

/-- `email_cliente: EmailStr` (required). -/
def vEmail (r : PyRecord) : Except ErrItem String :=
  match dictGet "email_cliente" r with
  | none => .error ⟨"email_cliente", "Field required"⟩
  | some (.pstr s) =>
      if checkEmail s then .ok s
      else .error ⟨"email_cliente", "value is not a valid email address"⟩
  | some _ => .error ⟨"email_cliente", "Input should be a valid string"⟩

/-- Decimal-string parse (nonnegative part), for Pydantic's lax
float-from-string coercion: `a.b` denotes `(a·10^|b| + b) / 10^|b|`. -/
def parseDecimalNonneg (s : String) : Option Rat :=
  match splitChar '.' s with
  | [a] => (parseNatStr a).map (fun n => mkRat n 1)
  | [a, b] =>
      match parseNatStr a, parseNatStr b with
      | some n, some f => some (mkRat (n * 10 ^ b.length + f) (10 ^ b.length))
      | _, _ => none
  | _ => none

/-- Decimal-string parse with optional leading minus sign. -/
def parseDecimal (s : String) : Option Rat :=
  match s.data with
  | '-' :: rest => (parseDecimalNonneg ⟨rest⟩).map Neg.neg
  | _ => parseDecimalNonneg s

/-- The `ge=0.01` bound of `monto_usd`. -/
def checkMonto (q : Rat) : Except ErrItem Rat :=
  if mkRat 1 100 ≤ q then .ok q
  else .error ⟨"monto_usd", "Input should be greater than or equal to 0.01"⟩

/-- `monto_usd: float = Field(..., ge=0.01)` (required). -/
def vMonto (r : PyRecord) : Except ErrItem Rat :=
  match dictGet "monto_usd" r with
  | none => .error ⟨"monto_usd", "Field required"⟩
  | some (.pnum q) => checkMonto q
  | some (.pint n) => checkMonto (mkRat n 1)
  | some (.pstr s) =>
      match parseDecimal s with
      | some q => checkMonto q
      | none => .error ⟨"monto_usd", "Input should be a valid number"⟩
  | some _ => .error ⟨"monto_usd", "Input should be a valid number"⟩

/-- ISO `YYYY-MM-DD` parse to the `yyyymmdd` code, with the in-range
month/day checks that make the numeric order agree with calendar order. -/
def parseDateISO (s : String) : Option Nat :=
  match splitChar '-' s with
  | [y, m, d] =>
      match parseNatStr y, parseNatStr m, parseNatStr d with
      | some yn, some mn, some dn =>
          if y.length = 4 ∧ m.length = 2 ∧ d.length = 2 ∧
              1 ≤ mn ∧ mn ≤ 12 ∧ 1 ≤ dn ∧ dn ≤ 31 then
            some (yn * 10000 + mn * 100 + dn)
          else none
      | _, _, _ => none
  | _ => none

/-- Type acceptance and coercion for `fecha_transaccion: date`: a `date`
object passes through, an ISO string is parsed. -/
def vFechaBase (r : PyRecord) : Except ErrItem Nat :=
  match dictGet "fecha_transaccion" r with
  | none => .error ⟨"fecha_transaccion", "Field required"⟩
  | some (.pdate d) => .ok d
  | some (.pstr s) =>
      match parseDateISO s with
      | some d => .ok d
      | none => .error ⟨"fecha_transaccion", "Input should be a valid date"⟩
  | some _ => .error ⟨"fecha_transaccion", "Input should be a valid date"⟩

/-- `fecha_transaccion: date` (required) followed by the custom
`validar_fecha_no_futura` field validator, which rejects any date after
`today`. -/
def vFecha (today : Nat) (r : PyRecord) : Except ErrItem Nat :=
  match vFechaBase r with
  | .error e => .error e
  | .ok d =>
      if today < d then
        .error ⟨"fecha_transaccion",
          "Value error, Data Quality Error: La fecha de la transacción no puede ser posterior al día de hoy."⟩
      else .ok d

/-- `metodo_pago: str = Field(default="NO_ESPECIFICADO")` followed by the
`estandarizar_metodo_pago` validator (`valor.strip().upper()`); Pydantic
does not run validators on an omitted field's default. -/
def vMetodo (r : PyRecord) : Except ErrItem String :=
  match dictGet "metodo_pago" r with
  | none => .ok "NO_ESPECIFICADO"
  | some (.pstr s) => .ok (pyStripUpper s)
  | some _ => .error ⟨"metodo_pago", "Input should be a valid string"⟩

/-- `notas_adicionales: Optional[str] = Field(default=None)`. -/
def vNotas (r : PyRecord) : Except ErrItem (Option String) :=
  match dictGet "notas_adicionales" r with
  | none => .ok none
  | some .pnone => .ok none
  | some (.pstr s) => .ok (some s)
  | some _ => .error ⟨"notas_adicionales", "Input should be a valid string"⟩

/-- The validated, normalized clean record behind `TransaccionVentas`. -/
structure TransaccionVentas where
  transaccion_id : Int
  email_cliente : String
  monto_usd : Rat
  fecha_transaccion : Nat
  metodo_pago : String
  notas_adicionales : Option String
deriving DecidableEq, Repr

/-- Error list contributed by one field validator. -/
def errsOf {α : Type} : Except ErrItem α → List ErrItem
  | .ok _ => []
  | .error e => [e]

/-- `TransaccionVentas(**registro)`: all field validators run, errors are
collected in field-declaration order; success requires every field to pass
(`ValidationError` carries the nonempty collected list otherwise). -/
def validateTransaccion (today : Nat) (r : PyRecord) :
    Except (List ErrItem) TransaccionVentas :=
  match vId r, vEmail r, vMonto r, vFecha today r, vMetodo r, vNotas r with
  | .ok a, .ok e, .ok m, .ok f, .ok mp, .ok nn => .ok ⟨a, e, m, f, mp, nn⟩
  | ra, re, rm, rf, rmp, rn =>
      .error (errsOf ra ++ errsOf re ++ errsOf rm ++ errsOf rf ++ errsOf rmp ++ errsOf rn)

/-- `model_dump()` of a clean record: the standardized dict
(int id, validated e-mail string, float amount, `date` object, cleaned
payment method, optional notes). -/
def TransaccionVentas.model_dump (t : TransaccionVentas) : PyRecord :=
  [("transaccion_id", .pint t.transaccion_id),
   ("email_cliente", .pstr t.email_cliente),
   ("monto_usd", .pnum t.monto_usd),
   ("fecha_transaccion", .pdate t.fecha_transaccion),
   ("metodo_pago", .pstr t.metodo_pago),
   ("notas_adicionales",
     match t.notas_adicionales with
     | none => .pnone
     | some s => .pstr s)]

/-! ### `json.dumps` and the quarantine path of `procesar_lote_extraccion` -/

/-- String escaping of `json.dumps` (quote and backslash; the records under
test contain no control characters). -/
def escChar (c : Char) : String :=
  if c = '"' then "\\\"" else if c = '\\' then "\\\\" else String.singleton c

def jsonEscape (s : String) : String :=
  String.join (s.data.map escChar)

/-- Fractional decimal digits of `n / d`, emitted until the remainder is
exhausted (bounded by `fuel`, as float repr is finite). -/
def fracDigitsAux : Nat → Nat → Nat → String
  | _, _, 0 => ""
  | r, d, fuel + 1 =>
      if r = 0 then ""
      else toString (r * 10 / d) ++ fracDigitsAux (r * 10 % d) d fuel

/-- Decimal rendering of a float value as `json.dumps` prints it for the
decimal-fraction values that occur in JSON input. -/
def ratRepr (q : Rat) : String :=
  let sign := if q.num < 0 then "-" else ""
  let n := q.num.natAbs
  let ip := n / q.den
  let rest := n % q.den
  if rest = 0 then sign ++ toString ip ++ ".0"
  else sign ++ toString ip ++ "." ++ fracDigitsAux rest q.den 17

/-- `json.dumps` on one JSON scalar. -/
def jvalDump : JVal → String
  | .jint n => toString n
  | .jnum q => ratRepr q
  | .jstr s => "\"" ++ jsonEscape s ++ "\""
  | .jnull => "null"

/-- `json.dumps(registro)` on a raw record. -/
def jsonDumps (r : RawRecord) : String :=
  "\x7b" ++
    String.intercalate ", "
      (r.map (fun kv => "\"" ++ jsonEscape kv.1 ++ "\": " ++ jvalDump kv.2)) ++
  "\x7d"

/-- One entry of `registros_cuarentena`: the audit payload built in the
`except ValidationError` branch. -/
structure Cuarentena where
  payload_original : String
  motivos_rechazo : List ErrItem
  falla_en_pipeline : String
deriving DecidableEq, Repr

/-- `procesar_lote_extraccion`: iterate over the raw records; a record that
validates contributes `model_dump()` to `registros_validos`, a record that
raises `ValidationError` contributes the structured audit payload (with the
`json.dumps`-serialized original) to `registros_cuarentena`. -/
def procesar_lote_extraccion (today : Nat) :
    List RawRecord → List PyRecord × List Cuarentena
  | [] => ([], [])
  | registro :: rest =>
      let tail := procesar_lote_extraccion today rest
      match validateTransaccion today registro.toPy with
      | .ok registro_limpio =>
          (registro_limpio.model_dump :: tail.1, tail.2)
      | .error errs =>
          (tail.1, ⟨jsonDumps registro, errs, "Pydantic Data Quality Gate"⟩ :: tail.2)

/-! ### The `UsuarioAPI` contract and `IngestorGenerico.validar_en_flujo` -/

/-- The clean record behind `UsuarioAPI`. -/
structure UsuarioAPI where
  id_usuario : Int
  nombre : String
  email : String
deriving DecidableEq, Repr

/-- Field lookup with `populate_by_name = True`: the alias is tried first,
then the field name. -/
def dictGetAliased (aliasKey fieldName : String) (r : PyRecord) : Option PyVal :=
  match dictGet aliasKey r with
  | some v => some v
  | none => dictGet fieldName r

/-- `id_usuario: int = Field(alias="id")`. -/
def vIdUsuario (r : PyRecord) : Except ErrItem Int :=
  coerceInt "id_usuario" (dictGetAliased "id" "id_usuario" r)

/-- `nombre: str = Field(alias="name")`. -/
def vNombre (r : PyRecord) : Except ErrItem String :=
  match dictGetAliased "name" "nombre" r with
  | none => .error ⟨"nombre", "Field required"⟩
  | some (.pstr s) => .ok s
  | some _ => .error ⟨"nombre", "Input should be a valid string"⟩

/-- `email: EmailStr`. -/
def vEmailUsuario (r : PyRecord) : Except ErrItem String :=
  match dictGet "email" r with
  | none => .error ⟨"email", "Field required"⟩
  | some (.pstr s) =>
      if checkEmail s then .ok s
      else .error ⟨"email", "value is not a valid email address"⟩
  | some _ => .error ⟨"email", "Input should be a valid string"⟩

/-- `UsuarioAPI(**registro)`. -/
def validateUsuario (r : PyRecord) : Except (List ErrItem) UsuarioAPI :=
  match vIdUsuario r, vNombre r, vEmailUsuario r with
  | .ok i, .ok n, .ok e => .ok ⟨i, n, e⟩
  | ri, rn, re => .error (errsOf ri ++ errsOf rn ++ errsOf re)

/-- `model_dump(by_alias=False)` of a clean `UsuarioAPI` record: keyed by
field names, not aliases. -/
def UsuarioAPI.model_dump (u : UsuarioAPI) : PyRecord :=
  [("id_usuario", .pint u.id_usuario), ("nombre", .pstr u.nombre), ("email", .pstr u.email)]

/-- `IngestorGenerico.validar_en_flujo`, generic over the injected
`modelo_pydantic` (a validator from dicts to clean records) and its dump
method: each record either is yielded as its clean dump or is dropped with a
diagnostic line (the generator's only output for a rejected record).
`ValidationError.errors()` is always nonempty, so the `[0]` subscript of the
log line is modelled by `headD`. -/
def validar_en_flujo {β : Type} (modelo : PyRecord → Except (List ErrItem) β)
    (dump : β → PyRecord) : List PyRecord → List PyRecord × List String
  | [] => ([], [])
  | registro :: rest =>
      let tail := validar_en_flujo modelo dump rest
      match modelo registro with
      | .ok modelo_valido => (dump modelo_valido :: tail.1, tail.2)
      | .error errs =>
          (tail.1,
            ("[Error de Calidad] Registro descartado. Motivo: " ++ (errs.headD ⟨"", ""⟩).msg)
              :: tail.2)

/-! ### Inversion lemmas for the field validators -/

theorem validateTransaccion_ok_iff (today : Nat) (r : PyRecord) (c : TransaccionVentas) :
    validateTransaccion today r = .ok c ↔
      vId r = .ok c.transaccion_id ∧ vEmail r = .ok c.email_cliente ∧
      vMonto r = .ok c.monto_usd ∧ vFecha today r = .ok c.fecha_transaccion ∧
      vMetodo r = .ok c.metodo_pago ∧ vNotas r = .ok c.notas_adicionales := by
  obtain ⟨a, e, m, f, mp, nn⟩ := c
  unfold validateTransaccion
  cases h1 : vId r <;> cases h2 : vEmail r <;> cases h3 : vMonto r <;>
    cases h4 : vFecha today r <;> cases h5 : vMetodo r <;> cases h6 : vNotas r <;>
    simp [errsOf, TransaccionVentas.mk.injEq, and_assoc]

theorem validateUsuario_ok_iff (r : PyRecord) (u : UsuarioAPI) :
    validateUsuario r = .ok u ↔
      vIdUsuario r = .ok u.id_usuario ∧ vNombre r = .ok u.nombre ∧
      vEmailUsuario r = .ok u.email := by
  obtain ⟨i, n, e⟩ := u
  unfold validateUsuario
  cases h1 : vIdUsuario r <;> cases h2 : vNombre r <;> cases h3 : vEmailUsuario r <;>
    simp [errsOf, UsuarioAPI.mk.injEq, and_assoc]

theorem vEmail_ok_check (r : PyRecord) (s : String) (h : vEmail r = .ok s) :
    checkEmail s = true := by
  unfold vEmail at h
  cases hg : dictGet "email_cliente" r with
  | none => rw [hg] at h; simp at h
  | some v =>
      rw [hg] at h
      cases v with
      | pstr s2 =>
          replace h : (if checkEmail s2 = true then Except.ok s2
              else Except.error (ErrItem.mk "email_cliente" "value is not a valid email address"))
              = Except.ok s := h
          by_cases hc : checkEmail s2
          · rw [if_pos hc] at h
            obtain rfl := Except.ok.inj h
            exact hc
          · rw [if_neg hc] at h
            simp at h
      | pint n => simp at h
      | pnum q => simp at h
      | pnone => simp at h
      | pdate d => simp at h

theorem checkMonto_ok (x q : Rat) (h : checkMonto x = .ok q) : mkRat 1 100 ≤ q := by
  unfold checkMonto at h
  by_cases hb : mkRat 1 100 ≤ x
  · rw [if_pos hb] at h
    obtain rfl := Except.ok.inj h
    exact hb
  · rw [if_neg hb] at h
    simp at h

theorem vMonto_ok_ge (r : PyRecord) (q : Rat) (h : vMonto r = .ok q) : mkRat 1 100 ≤ q := by
  unfold vMonto at h
  cases hg : dictGet "monto_usd" r with
  | none => rw [hg] at h; simp at h
  | some v =>
      rw [hg] at h
      cases v with
      | pnum x => exact checkMonto_ok x q h
      | pint n => exact checkMonto_ok _ q h
      | pstr s =>
          replace h : (match parseDecimal s with
              | some x => checkMonto x
              | none => Except.error (ErrItem.mk "monto_usd" "Input should be a valid number"))
              = Except.ok q := h
          cases hp : parseDecimal s with
          | none => rw [hp] at h; simp at h
          | some x =>
              rw [hp] at h
              exact checkMonto_ok x q h
      | pnone => simp at h
      | pdate d => simp at h

theorem vFecha_ok_le (today : Nat) (r : PyRecord) (d : Nat) (h : vFecha today r = .ok d) :
    ¬today < d := by
  unfold vFecha at h
  cases hb : vFechaBase r with
  | error e => rw [hb] at h; simp at h
  | ok d2 =>
      rw [hb] at h
      replace h : (if today < d2 then
          Except.error (ErrItem.mk "fecha_transaccion"
            "Value error, Data Quality Error: La fecha de la transacción no puede ser posterior al día de hoy.")
          else Except.ok d2) = Except.ok d := h
      by_cases hlt : today < d2
      · rw [if_pos hlt] at h
        simp at h
      · rw [if_neg hlt] at h
        obtain rfl := Except.ok.inj h
        exact hlt

theorem vMetodo_ok_fix (r : PyRecord) (mp : String) (h : vMetodo r = .ok mp) :
    pyStripUpper mp = mp := by
  unfold vMetodo at h
  cases hg : dictGet "metodo_pago" r with
  | none =>
      rw [hg] at h
      obtain rfl := Except.ok.inj h
      decide
  | some v =>
      rw [hg] at h
      cases v with
      | pstr s =>
          obtain rfl := Except.ok.inj h
          exact pyStripUpper_idem s
      | pint n => simp at h
      | pnum q => simp at h
      | pnone => simp at h
      | pdate d => simp at h

theorem vEmailUsuario_ok_check (r : PyRecord) (s : String) (h : vEmailUsuario r = .ok s) :
    checkEmail s = true := by
  unfold vEmailUsuario at h
  cases hg : dictGet "email" r with
  | none => rw [hg] at h; simp at h
  | some v =>
      rw [hg] at h
      cases v with
      | pstr s2 =>
          replace h : (if checkEmail s2 = true then Except.ok s2
              else Except.error (ErrItem.mk "email" "value is not a valid email address"))
              = Except.ok s := h
          by_cases hc : checkEmail s2
          · rw [if_pos hc] at h
            obtain rfl := Except.ok.inj h
            exact hc
          · rw [if_neg hc] at h
            simp at h
      | pint n => simp at h
      | pnum q => simp at h
      | pnone => simp at h
      | pdate d => simp at h

/-- Claim C7: validator normalization is idempotent.  A record accepted by
`TransaccionVentas` (respectively `UsuarioAPI`), when its `model_dump()` is
validated again, is accepted again and yields the identical clean record —
covering field renaming (`id` to `id_usuario`), type coercion, defaults, and
the `strip`/`upper` payment-method transform. -/
theorem normalization_idempotent :
    (∀ (today : Nat) (r : PyRecord) (c : TransaccionVentas),
        validateTransaccion today r = .ok c →
        validateTransaccion today c.model_dump = .ok c) ∧
    (∀ (r : PyRecord) (u : UsuarioAPI),
        validateUsuario r = .ok u → validateUsuario u.model_dump = .ok u) := by
  constructor
  · intro today r c h
    obtain ⟨a, e, m, f, mp, nn⟩ := c
    rw [validateTransaccion_ok_iff] at h ⊢
    obtain ⟨h1, h2, h3, h4, h5, h6⟩ := h
    refine ⟨rfl, ?_, ?_, ?_, ?_, ?_⟩
    · have hc := vEmail_ok_check r e h2
      show vEmail (TransaccionVentas.mk a e m f mp nn).model_dump = .ok e
      replace : vEmail (TransaccionVentas.mk a e m f mp nn).model_dump
          = (if checkEmail e = true then Except.ok e
             else Except.error (ErrItem.mk "email_cliente" "value is not a valid email address"))
          := rfl
      rw [this, if_pos hc]
    · have hm := vMonto_ok_ge r m h3
      show vMonto (TransaccionVentas.mk a e m f mp nn).model_dump = .ok m
      replace : vMonto (TransaccionVentas.mk a e m f mp nn).model_dump = checkMonto m := rfl
      rw [this]
      unfold checkMonto
      rw [if_pos hm]
    · have hf := vFecha_ok_le today r f h4
      show vFecha today (TransaccionVentas.mk a e m f mp nn).model_dump = .ok f
      replace : vFecha today (TransaccionVentas.mk a e m f mp nn).model_dump
          = (if today < f then
              Except.error (ErrItem.mk "fecha_transaccion"
                "Value error, Data Quality Error: La fecha de la transacción no puede ser posterior al día de hoy.")
             else Except.ok f) := rfl
      rw [this, if_neg hf]
    · have hmp := vMetodo_ok_fix r mp h5
      show vMetodo (TransaccionVentas.mk a e m f mp nn).model_dump = .ok mp
      replace : vMetodo (TransaccionVentas.mk a e m f mp nn).model_dump
          = Except.ok (pyStripUpper mp) := rfl
      rw [this, hmp]
    · show vNotas (TransaccionVentas.mk a e m f mp nn).model_dump = .ok nn
      cases nn with
      | none => rfl
      | some str => rfl
  · intro r u h
    obtain ⟨i, n, e⟩ := u
    rw [validateUsuario_ok_iff] at h ⊢
    obtain ⟨h1, h2, h3⟩ := h
    refine ⟨rfl, rfl, ?_⟩
    have hc := vEmailUsuario_ok_check r e h3
    show vEmailUsuario (UsuarioAPI.mk i n e).model_dump = .ok e
    replace : vEmailUsuario (UsuarioAPI.mk i n e).model_dump
        = (if checkEmail e = true then Except.ok e
           else Except.error (ErrItem.mk "email" "value is not a valid email address")) := rfl
    rw [this, if_pos hc]

/-- Witness record for the idempotence claim: the first record of the
script's own example batch. -/
def rpW : PyRecord :=
  [("transaccion_id", .pstr "1001"), ("email_cliente", .pstr "usuario1@empresa.com"),
   ("monto_usd", .pnum (mkRat 301 2)), ("fecha_transaccion", .pstr "2023-10-15"),
   ("metodo_pago", .pstr "   tarjeta_credito  ")]

/-- Witness for C7 at concrete inputs: re-validating the dumps of two
concretely validated records reproduces them exactly. -/
theorem normalization_idempotent_witness :
    validateTransaccion 20251012 (TransaccionVentas.model_dump
        ⟨1001, "usuario1@empresa.com", mkRat 301 2, 20231015, "TARJETA_CREDITO", none⟩)
      = .ok ⟨1001, "usuario1@empresa.com", mkRat 301 2, 20231015, "TARJETA_CREDITO", none⟩ ∧
    validateUsuario (UsuarioAPI.model_dump ⟨3, "Ana", "a@b.co"⟩) = .ok ⟨3, "Ana", "a@b.co"⟩ :=
  ⟨normalization_idempotent.1 20251012 rpW
      ⟨1001, "usuario1@empresa.com", mkRat 301 2, 20231015, "TARJETA_CREDITO", none⟩ (by decide),
   normalization_idempotent.2 [("id", .pint 3), ("name", .pstr "Ana"), ("email", .pstr "a@b.co")]
      ⟨3, "Ana", "a@b.co"⟩ (by decide)⟩

/-- Claim C6: the validation filter yields exactly one verdict per input
record: in `procesar_lote_extraccion` the valid and quarantined outputs
together account for every input record, the valid list is exactly the dumps
of the records the contract accepts, and the quarantine list is exactly the
audit entries of the records it rejects; likewise `validar_en_flujo`, for
every injected validator, yields one clean dump or one diagnostic line per
record with nothing omitted. -/
theorem validation_partitions_input :
    (∀ (today : Nat) (datos : List RawRecord),
      (procesar_lote_extraccion today datos).1.length +
          (procesar_lote_extraccion today datos).2.length = datos.length ∧
      (procesar_lote_extraccion today datos).1 = datos.filterMap (fun r =>
          match validateTransaccion today (RawRecord.toPy r) with
          | .ok c => some c.model_dump
          | .error _ => none) ∧
      (procesar_lote_extraccion today datos).2 = datos.filterMap (fun r =>
          match validateTransaccion today (RawRecord.toPy r) with
          | .ok _ => none
          | .error errs => some ⟨jsonDumps r, errs, "Pydantic Data Quality Gate"⟩)) ∧
    (∀ (β : Type) (modelo : PyRecord → Except (List ErrItem) β) (dump : β → PyRecord)
        (datos : List PyRecord),
      (validar_en_flujo modelo dump datos).1.length +
          (validar_en_flujo modelo dump datos).2.length = datos.length ∧
      (validar_en_flujo modelo dump datos).1 = datos.filterMap (fun r =>
          match modelo r with
          | .ok b => some (dump b)
          | .error _ => none)) := by
  constructor
  · intro today datos
    induction datos with
    | nil => exact ⟨rfl, rfl, rfl⟩
    | cons registro rest ih =>
        obtain ⟨ihLen, ihV, ihQ⟩ := ih
        unfold procesar_lote_extraccion
        cases hv : validateTransaccion today (RawRecord.toPy registro) with
        | ok c =>
            refine ⟨?_, ?_, ?_⟩
            · simp only [List.length_cons]
              omega
            · simp only [List.filterMap_cons, hv]
              rw [ihV]
            · simp only [List.filterMap_cons, hv]
              rw [ihQ]
        | error errs =>
            refine ⟨?_, ?_, ?_⟩
            · simp only [List.length_cons]
              omega
            · simp only [List.filterMap_cons, hv]
              rw [ihV]
            · simp only [List.filterMap_cons, hv]
              rw [ihQ]
  · intro β modelo dump datos
    induction datos with
    | nil => exact ⟨rfl, rfl⟩
    | cons registro rest ih =>
        obtain ⟨ihLen, ihY⟩ := ih
        unfold validar_en_flujo
        cases hv : modelo registro with
        | ok b =>
            refine ⟨?_, ?_⟩
            · simp only [List.length_cons]
              omega
            · simp only [List.filterMap_cons, hv]
              rw [ihY]
        | error errs =>
            refine ⟨?_, ?_⟩
            · simp only [List.length_cons]
              omega
            · simp only [List.filterMap_cons, hv]
              rw [ihY]

/-- Claim C10: every quarantine entry stores the `json.dumps`-serialized
string form of the original payload (not the mapping object itself),
together with the validator's structured error list verbatim and the fixed
pipeline-stage marker; the input list itself is returned unmodified by the
traversal (it is never mutated). -/
theorem quarantine_entry_faithful (today : Nat) (datos : List RawRecord) (q : Cuarentena)
    (hq : q ∈ (procesar_lote_extraccion today datos).2) :
    q.falla_en_pipeline = "Pydantic Data Quality Gate" ∧
    ∃ r ∈ datos, validateTransaccion today (RawRecord.toPy r) = .error q.motivos_rechazo ∧
      q.payload_original = jsonDumps r := by
  induction datos with
  | nil => simp [procesar_lote_extraccion] at hq
  | cons registro rest ih =>
      unfold procesar_lote_extraccion at hq
      cases hv : validateTransaccion today (RawRecord.toPy registro) with
      | ok c =>
          rw [hv] at hq
          obtain ⟨h1, r, hr, h2⟩ := ih hq
          exact ⟨h1, r, List.mem_cons_of_mem _ hr, h2⟩
      | error errs =>
          rw [hv] at hq
          rcases List.mem_cons.mp hq with hq1 | hq2
          · subst hq1
            exact ⟨rfl, registro, List.mem_cons_self _ _, hv, rfl⟩
          · obtain ⟨h1, r, hr, h2⟩ := ih hq2
            exact ⟨h1, r, List.mem_cons_of_mem _ hr, h2⟩

/-- Witness for C10 at a concrete input: the empty record is rejected with
the four required-field reasons, and its quarantine entry carries the
serialized empty JSON object and the fixed stage marker. -/
theorem quarantine_entry_faithful_witness :
    (Cuarentena.mk "{}"
        [⟨"transaccion_id", "Field required"⟩, ⟨"email_cliente", "Field required"⟩,
         ⟨"monto_usd", "Field required"⟩, ⟨"fecha_transaccion", "Field required"⟩]
        "Pydantic Data Quality Gate").falla_en_pipeline = "Pydantic Data Quality Gate" ∧
    ∃ r ∈ [([] : RawRecord)],
      validateTransaccion 20251012 (RawRecord.toPy r) = .error
        (Cuarentena.mk "{}"
          [⟨"transaccion_id", "Field required"⟩, ⟨"email_cliente", "Field required"⟩,
           ⟨"monto_usd", "Field required"⟩, ⟨"fecha_transaccion", "Field required"⟩]
          "Pydantic Data Quality Gate").motivos_rechazo ∧
      (Cuarentena.mk "{}"
        [⟨"transaccion_id", "Field required"⟩, ⟨"email_cliente", "Field required"⟩,
         ⟨"monto_usd", "Field required"⟩, ⟨"fecha_transaccion", "Field required"⟩]
        "Pydantic Data Quality Gate").payload_original = jsonDumps r :=
  quarantine_entry_faithful 20251012 [([] : RawRecord)] _ (by decide)

end Validator
